import Mathlib

/-!
Verification of the runtime timer-state engine of the `film-timer` repository
(`app/services/timer_state.py`).

The embedding models wall-clock instants and durations as integer seconds
(`Int`): every quantity the engine manipulates is produced by
`int(timedelta.total_seconds())`, so whole seconds are exact.  `datetime.now()`
becomes an explicit `now : Int` argument threaded through every operation.
Python's floor division `//` and modulo `%` are `Int.fdiv` and `Int.fmod`.
The registry `self._timers : Dict[int, TimerState]` becomes a function
`Int → Option TimerState` updated functionally.  Code paths that raise
(`IndexError` from `steps[-1]` on an empty list, `ZeroDivisionError` from
`% 0`) are modelled with `Except String`.
-/

namespace ITimer

/-- Mirrors `TimerStatus` (timer_state.py lines 14-19). -/
inductive TimerStatus where
  | running
  | paused
  | stopped
  | finished
deriving DecidableEq

/-- Mirrors the dataclass `TimerStepData` (lines 21-26). -/
structure TimerStepData where
  step_index : Int
  duration_seconds : Int
  repetitions : Int
deriving DecidableEq

/-- Mirrors the dataclass `TimerState` (lines 29-42); datetimes are integer
seconds and `total_time_paused : timedelta` is its whole-second count. -/
structure TimerState where
  timer_id : Int
  status : TimerStatus
  current_step_index : Int
  current_repetition : Int
  time_in_step : Int
  time_in_timer : Int
  start_time : Int
  total_duration : Int
  steps : List TimerStepData
  pause_time : Option Int
  total_time_paused : Int
deriving DecidableEq

/-- The registry `self._timers` of `TimerStateManager`. -/
def Mgr : Type := Int → Option TimerState

/-- Dict store `self._timers[timer_id] = state`. -/
def Mgr.insert (m : Mgr) (tid : Int) (s : TimerState) : Mgr :=
  fun j => if j = tid then some s else m j

/-- Fresh manager (`self._timers = {}`). -/
def Mgr.empty : Mgr := fun _ => none

/-- Mirrors `_calculate_total_duration` (lines 52-54). -/
def calculateTotalDuration (steps : List TimerStepData) : Int :=
  (steps.map fun step => step.duration_seconds * step.repetitions).sum

/-- Mirrors the while loop of `_update_timer_state` (lines 80-108): walk the
steps, skipping each fully passed step, and fill in the progress fields at the
first step still in progress.  The arguments `step_time` and `step_idx` are
the loop variables; `tit` is `state.time_in_timer`.  In the in-progress branch
Python evaluates `remaining_time // step_duration`, which raises
`ZeroDivisionError` when `step_duration == 0`. -/
def advanceSteps (tit : Int) (s : TimerState) :
    List TimerStepData → Int → Int → Except String TimerState
  | [], _, _ => .ok s
  | step :: rest, step_time, step_idx =>
    let step_duration := step.duration_seconds
    if step_time + step_duration * step.repetitions ≤ tit then
      advanceSteps tit s rest (step_time + step_duration * step.repetitions) (step_idx + 1)
    else
      if step_duration = 0 then
        .error "ZeroDivisionError"
      else
        let remaining_time := tit - step_time
        let repetition := min (remaining_time.fdiv step_duration + 1) step.repetitions
        let t := remaining_time.fmod step_duration
        let time_in_step := if t = 0 ∧ 1 < repetition then step_duration else t
        .ok { s with current_step_index := step_idx,
                     current_repetition := repetition,
                     time_in_step := time_in_step }

/-- Mirrors the body of `_update_timer_state` (lines 62-108) on a present
record: recompute `time_in_timer` from the clock, then either take the
finished branch (lines 71-78, where `steps[-1]` raises `IndexError` on an
empty step list) or walk the steps. -/
def updateRecord (now : Int) (s0 : TimerState) : Except String TimerState :=
  let total_elapsed := now - s0.start_time
  let paused_seconds := s0.total_time_paused
  let s : TimerState := { s0 with time_in_timer := total_elapsed - paused_seconds }
  if s.total_duration ≤ s.time_in_timer then
    match s.steps.getLast? with
    | none => .error "IndexError"
    | some last =>
      .ok { s with status := TimerStatus.finished,
                   current_step_index := (s.steps.length : Int) - 1,
                   current_repetition := last.repetitions,
                   time_in_step := last.duration_seconds }
  else
    advanceSteps s.time_in_timer s s.steps 0 0

/-- Mirrors `_update_timer_state` (lines 57-108) at the registry level: a
missing identifier returns immediately, otherwise the stored record is
recomputed in place. -/
def updateTimerState (now : Int) (m : Mgr) (tid : Int) : Except String Mgr :=
  match m tid with
  | none => .ok m
  | some s =>
    match updateRecord now s with
    | .error e => .error e
    | .ok u => .ok (m.insert tid u)

/-- Mirrors `get_timer_state` (lines 110-113): update, then look up. -/
def getTimerState (now : Int) (m : Mgr) (tid : Int) :
    Except String (Mgr × Option TimerState) :=
  match updateTimerState now m tid with
  | .error e => .error e
  | .ok m2 => .ok (m2, m2 tid)

/-- Mirrors `start_timer` (lines 120-134): build a fresh record (defaults
`pause_time=None`, `total_time_paused=0`) and store it, overwriting any
record already present for that identifier. -/
def startTimer (now : Int) (m : Mgr) (tid : Int) (steps : List TimerStepData) :
    Mgr × TimerState :=
  let state : TimerState :=
    { timer_id := tid
      status := TimerStatus.running
      current_step_index := 0
      current_repetition := 1
      time_in_step := 0
      time_in_timer := 0
      start_time := now
      total_duration := calculateTotalDuration steps
      steps := steps
      pause_time := none
      total_time_paused := 0 }
  (m.insert tid state, state)

/-- Mirrors `pause_timer` (lines 136-145): `None` only when no record exists;
when the record is not running it is returned untouched. -/
def pauseTimer (now : Int) (m : Mgr) (tid : Int) : Mgr × Option TimerState :=
  match m tid with
  | none => (m, none)
  | some state =>
    if state.status = TimerStatus.running then
      let state2 : TimerState :=
        { state with status := TimerStatus.paused, pause_time := some now }
      (m.insert tid state2, some state2)
    else
      (m, some state)

/-- Mirrors `resume_timer` (lines 147-160): `None` only when no record exists;
on a paused record the completed pause interval is added to
`total_time_paused` (a `datetime` is always truthy, so `if state.pause_time`
is the `some` test) and `pause_time` is cleared. -/
def resumeTimer (now : Int) (m : Mgr) (tid : Int) : Mgr × Option TimerState :=
  match m tid with
  | none => (m, none)
  | some state =>
    if state.status = TimerStatus.paused then
      let state1 : TimerState := { state with status := TimerStatus.running }
      let state2 : TimerState :=
        match state1.pause_time with
        | some p =>
          { state1 with total_time_paused := state1.total_time_paused + (now - p) }
        | none => state1
      let state3 : TimerState := { state2 with pause_time := none }
      (m.insert tid state3, some state3)
    else
      (m, some state)

/-- Mirrors `stop_timer` (lines 162-170): force the status to stopped, then
run the recompute on the stored record and return it. -/
def stopTimer (now : Int) (m : Mgr) (tid : Int) :
    Except String (Mgr × Option TimerState) :=
  match m tid with
  | none => .ok (m, none)
  | some state =>
    let state2 : TimerState := { state with status := TimerStatus.stopped }
    match updateRecord now state2 with
    | .error e => .error e
    | .ok u => .ok (m.insert tid u, some u)

/-- Reference progress computation, written from the specification's words
(§4 step 4): walk the step list; at the first step with
`remaining < duration × repetitions` report
`currentRepetition = min(repetitions, floor(remaining / duration) + 1)` and
`timeInCurrentStep = remaining mod duration`, corrected to the full duration
at a repetition boundary; otherwise subtract the step's span and continue.
Returns `none` when every step is fully passed. -/
def progressSpec : List TimerStepData → Int → Int → Option (Int × Int × Int)
  | [], _, _ => none
  | step :: rest, idx, remaining =>
    if remaining < step.duration_seconds * step.repetitions then
      let rep := min step.repetitions (remaining.fdiv step.duration_seconds + 1)
      let t0 := remaining.fmod step.duration_seconds
      let t := if t0 = 0 ∧ 1 < rep then step.duration_seconds else t0
      some (idx, rep, t)
    else
      progressSpec rest (idx + 1) (remaining - step.duration_seconds * step.repetitions)

/-- Step list `[(60 s × 2), (120 s × 1)]` used by the spec's worked examples;
its total duration is 240 s. -/
def demoSteps : List TimerStepData := [⟨0, 60, 2⟩, ⟨1, 120, 1⟩]

/-- Record produced by starting timer 1 at instant 0 with `demoSteps`. -/
def startedRecord : TimerState := (startTimer 0 Mgr.empty 1 demoSteps).2

/-- Registry after starting timer 1 at instant 0 with `demoSteps`. -/
def startedMgr : Mgr := (startTimer 0 Mgr.empty 1 demoSteps).1

/-- Registry after additionally pausing timer 1 at instant 30. -/
def pausedMgr : Mgr := (pauseTimer 30 startedMgr 1).1

/-- Record returned by a query, or `none` on a miss or an exception. -/
def recOf (r : Except String (Mgr × Option TimerState)) : Option TimerState :=
  match r with
  | .ok (_, some u) => some u
  | _ => none

/-- Registry left by a query; the fallback is kept on an exception. -/
def mgrOf (r : Except String (Mgr × Option TimerState)) (fallback : Mgr) : Mgr :=
  match r with
  | .ok (m2, _) => m2
  | .error _ => fallback

/-- Exception message raised by a query, if any. -/
def errOf (r : Except String (Mgr × Option TimerState)) : Option String :=
  match r with
  | .error e => some e
  | .ok _ => none

/-- Registry after timer 1 was started at 0 with `demoSteps` and stopped
at instant 10. -/
def stoppedMgr : Mgr := mgrOf (stopTimer 10 startedMgr 1) startedMgr

/-- Registry after starting timer 1 at instant 0 with the single step
`(1 s × 1)`, whose total duration is 1 s. -/
def shortMgr : Mgr := (startTimer 0 Mgr.empty 1 [⟨0, 1, 1⟩]).1

/-- Claim C1: the claim states that while a timer stays Paused every query
reports the frozen value `(pausedAt − startedAt) − totalPaused`.  The code
computes `time_in_timer` from `datetime.now()` with no case for an
in-progress pause, so the reported value keeps growing during the pause:
started at 0 and paused at 30 (frozen value 30), queries at instants 40 and
50 report 40 and then 50, the record still being Paused. -/
theorem pause_keeps_elapsed_growing :
    (recOf (getTimerState 40 pausedMgr 1)).map TimerState.time_in_timer = some 40 ∧
    (recOf (getTimerState 40 pausedMgr 1)).map TimerState.status = some TimerStatus.paused ∧
    (recOf (getTimerState 50 (mgrOf (getTimerState 40 pausedMgr 1) pausedMgr) 1)).map
        TimerState.time_in_timer = some 50 ∧
    (recOf (getTimerState 50 (mgrOf (getTimerState 40 pausedMgr 1) pausedMgr) 1)).map
        TimerState.status = some TimerStatus.paused := by
  decide

/-- Claim C2: the claim states that Pause on a non-Running record and Resume
on a non-Paused record return absent.  The code returns `None` only when no
record exists; on a status mismatch it returns the stored record untouched:
Resume on a Running timer returns the Running record, and Pause on a Paused
timer returns the Paused record. -/
theorem wrong_state_pause_resume_return_record :
    ((resumeTimer 5 startedMgr 1).2).map TimerState.status = some TimerStatus.running ∧
    (resumeTimer 5 startedMgr 1).1 1 = startedMgr 1 ∧
    ((pauseTimer 40 pausedMgr 1).2).map TimerState.status = some TimerStatus.paused ∧
    (pauseTimer 40 pausedMgr 1).1 1 = pausedMgr 1 := by
  decide

/-- Claim C3: the claim states that after a Start with zero steps an
immediate query returns a Finished record and no error is raised.  Start
does succeed with `totalDuration = 0`, but the query takes the finished
branch and evaluates `state.steps[-1]` on the empty list, raising
`IndexError`. -/
theorem empty_steps_query_raises :
    ((startTimer 0 Mgr.empty 1 []).2).total_duration = 0 ∧
    ((startTimer 0 Mgr.empty 1 []).2).status = TimerStatus.running ∧
    errOf (getTimerState 0 ((startTimer 0 Mgr.empty 1 []).1) 1) = some "IndexError" := by
  decide

/-- Claim C4: the claim states that after Stop the elapsed fields are
computed once on the Stop call and never touched again.  The code has no
status guard in `_update_timer_state`, so every later query recomputes from
the wall clock: stopped at instant 10 with `time_in_timer = 10`, a query at
20 reports 20, and a query at 300 (past the 240 s total) even flips the
stored status from Stopped to Finished. -/
theorem stop_does_not_freeze_elapsed :
    (recOf (stopTimer 10 startedMgr 1)).map TimerState.time_in_timer = some 10 ∧
    (recOf (stopTimer 10 startedMgr 1)).map TimerState.status = some TimerStatus.stopped ∧
    (recOf (getTimerState 20 stoppedMgr 1)).map TimerState.time_in_timer = some 20 ∧
    (recOf (getTimerState 20 stoppedMgr 1)).map TimerState.status = some TimerStatus.stopped ∧
    (recOf (getTimerState 300 stoppedMgr 1)).map TimerState.status = some TimerStatus.finished := by
  decide

/-- Claim C5, counterexample: the claim states that whenever a record exists
Stop returns a record whose status is Stopped.  For a timer of total
duration 1 started at instant 0, Stop at instant 5 runs the recompute after
forcing the status, and the recompute overwrites Stopped with Finished, so
the returned (and stored) status is Finished. -/
theorem stop_after_finish_returns_finished :
    (recOf (stopTimer 5 shortMgr 1)).map TimerState.status = some TimerStatus.finished ∧
    (recOf (stopTimer 5 shortMgr 1)).map TimerState.status ≠ some TimerStatus.stopped := by
  decide

/-- Loop invariant of the step walk: whenever the accumulated span does not
exceed the elapsed time, the walk returns without raising and rewrites at
most the three progress fields.  In particular a zero-duration step is
always skipped in that situation, so the division is never reached with a
zero divisor. -/
theorem advanceSteps_ok (tit : Int) (s : TimerState) :
    ∀ (steps : List TimerStepData) (step_time step_idx : Int),
      step_time ≤ tit →
      ∃ u, advanceSteps tit s steps step_time step_idx = .ok u ∧
        u.timer_id = s.timer_id ∧ u.status = s.status ∧
        u.time_in_timer = s.time_in_timer ∧ u.start_time = s.start_time ∧
        u.total_duration = s.total_duration ∧ u.steps = s.steps ∧
        u.pause_time = s.pause_time ∧ u.total_time_paused = s.total_time_paused
  | [], step_time, step_idx, _ =>
    ⟨s, rfl, rfl, rfl, rfl, rfl, rfl, rfl, rfl, rfl⟩
  | step :: rest, step_time, step_idx, h => by
    by_cases hc : step_time + step.duration_seconds * step.repetitions ≤ tit
    · have ih := advanceSteps_ok tit s rest
        (step_time + step.duration_seconds * step.repetitions) (step_idx + 1) hc
      simpa [advanceSteps, hc] using ih
    · have hd : ¬ step.duration_seconds = 0 := by
        intro h0
        rw [h0, zero_mul] at hc
        omega
      have heq : advanceSteps tit s (step :: rest) step_time step_idx =
          .ok { s with
                current_step_index := step_idx,
                current_repetition :=
                  (min ((tit - step_time).fdiv step.duration_seconds + 1) step.repetitions),
                time_in_step :=
                  (if (tit - step_time).fmod step.duration_seconds = 0 ∧
                      1 < min ((tit - step_time).fdiv step.duration_seconds + 1)
                        step.repetitions
                  then step.duration_seconds
                  else (tit - step_time).fmod step.duration_seconds) } := by
        simp only [advanceSteps]
        rw [if_neg hc, if_neg hd]
      exact ⟨_, heq, rfl, rfl, rfl, rfl, rfl, rfl, rfl, rfl⟩

/-- With a non-empty step list and a non-negative elapsed value the
recompute never raises: it stores the freshly computed elapsed time,
becomes Finished exactly when the total duration is reached, and otherwise
leaves the status unchanged. -/
theorem updateRecord_ok (now : Int) (s : TimerState)
    (hne : s.steps ≠ [] ∨ now - s.start_time - s.total_time_paused < s.total_duration)
    (h0 : 0 ≤ now - s.start_time - s.total_time_paused) :
    ∃ u, updateRecord now s = .ok u ∧
      u.time_in_timer = now - s.start_time - s.total_time_paused ∧
      u.steps = s.steps ∧ u.start_time = s.start_time ∧
      u.total_duration = s.total_duration ∧
      u.pause_time = s.pause_time ∧ u.total_time_paused = s.total_time_paused ∧
      (s.total_duration ≤ now - s.start_time - s.total_time_paused →
        u.status = TimerStatus.finished) ∧
      (now - s.start_time - s.total_time_paused < s.total_duration →
        u.status = s.status) := by
  simp only [updateRecord]
  by_cases hfin : s.total_duration ≤ now - s.start_time - s.total_time_paused
  · rw [if_pos hfin,
      List.getLast?_eq_getLast s.steps (hne.resolve_right (not_lt.mpr hfin))]
    exact ⟨_, rfl, rfl, rfl, rfl, rfl, rfl, rfl, fun _ => rfl, fun hlt => absurd hfin
      (not_le.mpr hlt)⟩
  · rw [if_neg hfin]
    obtain ⟨u, hu, _, hst, htit, hstart, hdur, hsteps, hpause, hpaused⟩ :=
      advanceSteps_ok (now - s.start_time - s.total_time_paused)
        { s with time_in_timer := now - s.start_time - s.total_time_paused }
        s.steps 0 0 h0
    exact ⟨u, hu, by simp [htit], by simp [hsteps], by simp [hstart],
      by simp [hdur], by simp [hpause], by simp [hpaused],
      fun hge => absurd hge hfin, fun _ => by simp [hst]⟩

/-- Claim C7: for every record with a non-empty step list, whenever the
elapsed active time reaches the total duration the recompute sets status
Finished, the step index to the last index, the repetition to the last
step's repetition count and the time-in-step to the last step's duration. -/
theorem finish_branch_fields (now : Int) (s : TimerState) (hne : s.steps ≠ [])
    (hfin : s.total_duration ≤ now - s.start_time - s.total_time_paused) :
    updateRecord now s = .ok { s with
      status := TimerStatus.finished,
      time_in_timer := now - s.start_time - s.total_time_paused,
      current_step_index := (s.steps.length : Int) - 1,
      current_repetition := (s.steps.getLast hne).repetitions,
      time_in_step := (s.steps.getLast hne).duration_seconds } := by
  simp only [updateRecord]
  rw [if_pos hfin, List.getLast?_eq_getLast s.steps hne]

/-- Witness for C7 at a concrete input: `demoSteps` (total 240) started at
instant 0 and recomputed at instant 300. -/
theorem finish_branch_fields_witness :
    updateRecord 300 startedRecord = .ok { startedRecord with
      status := TimerStatus.finished,
      time_in_timer := 300,
      current_step_index := 1,
      current_repetition := 1,
      time_in_step := 120 } :=
  (finish_branch_fields 300 startedRecord (by decide) (by decide)).trans (by rfl)

/-- Claim C8: for a timer started at T0, paused at T0+30 and resumed at
T0+90, the resume adds the completed pause interval (60 s) to
`total_time_paused` and clears `pause_time`, and a query immediately after
the resume reports 30 elapsed active seconds, not 90. -/
theorem resume_excludes_pause_interval (T0 tid : Int) (m : Mgr)
    (steps : List TimerStepData) (hne : steps ≠ []) :
    ∃ r,
      (resumeTimer (T0 + 90)
        ((pauseTimer (T0 + 30) ((startTimer T0 m tid steps).1) tid).1) tid).2 = some r ∧
      r.status = TimerStatus.running ∧
      r.total_time_paused = 60 ∧
      r.pause_time = none ∧
      (recOf (getTimerState (T0 + 90)
        ((resumeTimer (T0 + 90)
          ((pauseTimer (T0 + 30) ((startTimer T0 m tid steps).1) tid).1) tid).1) tid)).map
        TimerState.time_in_timer = some 30 := by
  have hres : resumeTimer (T0 + 90)
      ((pauseTimer (T0 + 30) ((startTimer T0 m tid steps).1) tid).1) tid =
      (((((startTimer T0 m tid steps).1).insert tid
          { timer_id := tid
            status := TimerStatus.paused
            current_step_index := 0
            current_repetition := 1
            time_in_step := 0
            time_in_timer := 0
            start_time := T0
            total_duration := calculateTotalDuration steps
            steps := steps
            pause_time := some (T0 + 30)
            total_time_paused := 0 }).insert tid
          { timer_id := tid
            status := TimerStatus.running
            current_step_index := 0
            current_repetition := 1
            time_in_step := 0
            time_in_timer := 0
            start_time := T0
            total_duration := calculateTotalDuration steps
            steps := steps
            pause_time := none
            total_time_paused := 0 + (T0 + 90 - (T0 + 30)) }),
        some
          { timer_id := tid
            status := TimerStatus.running
            current_step_index := 0
            current_repetition := 1
            time_in_step := 0
            time_in_timer := 0
            start_time := T0
            total_duration := calculateTotalDuration steps
            steps := steps
            pause_time := none
            total_time_paused := 0 + (T0 + 90 - (T0 + 30)) }) := by
    simp [startTimer, pauseTimer, resumeTimer, Mgr.insert]
  obtain ⟨u, hu, htit, -, -, -, -, -, -, -⟩ :=
    updateRecord_ok (T0 + 90)
      { timer_id := tid
        status := TimerStatus.running
        current_step_index := 0
        current_repetition := 1
        time_in_step := 0
        time_in_timer := 0
        start_time := T0
        total_duration := calculateTotalDuration steps
        steps := steps
        pause_time := none
        total_time_paused := 0 + (T0 + 90 - (T0 + 30)) } (Or.inl hne)
      (by show (0 : Int) ≤ T0 + 90 - T0 - (0 + (T0 + 90 - (T0 + 30))); omega)
  refine ⟨_, congrArg Prod.snd hres, rfl, ?_, rfl, ?_⟩
  · show (0 : Int) + (T0 + 90 - (T0 + 30)) = 60
    omega
  · rw [congrArg Prod.fst hres]
    simp only [getTimerState, updateTimerState, Mgr.insert, if_pos]
    rw [hu]
    simp [Mgr.insert, recOf, htit]

/-- Witness for C8 at a concrete input: timer 1, `demoSteps`, started at 0,
paused at 30, resumed at 90. -/
theorem resume_excludes_pause_interval_witness :
    ∃ r,
      (resumeTimer 90 ((pauseTimer 30 ((startTimer 0 Mgr.empty 1 demoSteps).1) 1).1) 1).2
        = some r ∧
      r.status = TimerStatus.running ∧
      r.total_time_paused = 60 ∧
      r.pause_time = none ∧
      (recOf (getTimerState 90
        ((resumeTimer 90 ((pauseTimer 30 ((startTimer 0 Mgr.empty 1 demoSteps).1) 1).1) 1).1)
        1)).map TimerState.time_in_timer = some 30 := by
  have h := resume_excludes_pause_interval 0 1 Mgr.empty demoSteps (by decide)
  simpa using h

/-- Claim C5 (amended): Stop reports absent exactly when no record exists;
when a record exists it forces the status to Stopped and recomputes, so the
returned and stored record is Stopped whenever the elapsed active time is
still below the total duration — but the recompute overwrites the status
with Finished when the elapsed active time has reached the total duration
(see `stop_after_finish_returns_finished`). -/
theorem stop_stops_unfinished_records (now tid : Int) (m : Mgr) :
    (m tid = none → stopTimer now m tid = .ok (m, none)) ∧
    (∀ s, m tid = some s →
      0 ≤ now - s.start_time - s.total_time_paused →
      now - s.start_time - s.total_time_paused < s.total_duration →
      ∃ u, stopTimer now m tid = .ok (m.insert tid u, some u) ∧
        u.status = TimerStatus.stopped ∧
        u.time_in_timer = now - s.start_time - s.total_time_paused) := by
  constructor
  · intro hnone
    simp [stopTimer, hnone]
  · intro s hs h0 hlt
    obtain ⟨u, hu, htit, -, -, -, -, -, -, hst⟩ :=
      updateRecord_ok now { s with status := TimerStatus.stopped }
        (Or.inr (by simpa using hlt)) (by simpa using h0)
    refine ⟨u, ?_, ?_, by simpa using htit⟩
    · simp only [stopTimer, hs]
      rw [hu]
    · have := hst (by simpa using hlt)
      simpa using this

/-- Witness for the amended C5: a fresh registry has no record for timer 1,
so Stop reports absent; on `startedMgr` (total 240, started at instant 0)
Stop at instant 10 returns a Stopped record with 10 elapsed seconds. -/
theorem stop_stops_unfinished_records_witness :
    stopTimer 0 Mgr.empty 1 = .ok (Mgr.empty, none) ∧
    ∃ u, stopTimer 10 startedMgr 1 = .ok (startedMgr.insert 1 u, some u) ∧
      u.status = TimerStatus.stopped ∧
      u.time_in_timer = 10 - startedRecord.start_time - startedRecord.total_time_paused := by
  constructor
  · exact (stop_stops_unfinished_records 0 1 Mgr.empty).1 rfl
  · exact (stop_stops_unfinished_records 10 1 startedMgr).2 startedRecord
      (by decide) (by decide) (by decide)

/-- Claim C9: Start always succeeds and fully replaces any prior record for
the identifier: whatever the prior registry held, the stored record is the
returned one, with status Running, totalDuration the sum of
duration × repetitions over the supplied steps only, elapsed and per-step
fields reset (index 0, repetition 1, zero times) and zero pause
accounting. -/
theorem start_replaces_record (now tid : Int) (m : Mgr) (steps : List TimerStepData) :
    (startTimer now m tid steps).1 tid = some (startTimer now m tid steps).2 ∧
    (startTimer now m tid steps).2 =
      { timer_id := tid
        status := TimerStatus.running
        current_step_index := 0
        current_repetition := 1
        time_in_step := 0
        time_in_timer := 0
        start_time := now
        total_duration := (steps.map fun step => step.duration_seconds * step.repetitions).sum
        steps := steps
        pause_time := none
        total_time_paused := 0 } :=
  ⟨by simp [startTimer, Mgr.insert], rfl⟩

/-- The step walk agrees with the specification's progress formulas: when
the elapsed time lies strictly inside the spans of the remaining steps, the
walk returns the record whose three progress fields are exactly the triple
computed by `progressSpec` on the same remaining steps. -/
theorem advanceSteps_eq_spec :
    ∀ (steps : List TimerStepData) (tit step_time step_idx : Int) (s : TimerState),
      step_time ≤ tit →
      tit - step_time < calculateTotalDuration steps →
      ∃ i r t,
        progressSpec steps step_idx (tit - step_time) = some (i, r, t) ∧
        advanceSteps tit s steps step_time step_idx =
          .ok { s with current_step_index := i, current_repetition := r, time_in_step := t }
  | [], tit, step_time, step_idx, s, h0, hlt => by
    exfalso
    simp only [calculateTotalDuration, List.map_nil, List.sum_nil] at hlt
    omega
  | step :: rest, tit, step_time, step_idx, s, h0, hlt => by
    by_cases hc : step_time + step.duration_seconds * step.repetitions ≤ tit
    · have hlt2 : tit - (step_time + step.duration_seconds * step.repetitions) <
          calculateTotalDuration rest := by
        simp only [calculateTotalDuration, List.map_cons, List.sum_cons] at hlt ⊢
        linarith
      obtain ⟨i, r, t, hspec, hadv⟩ :=
        advanceSteps_eq_spec rest tit (step_time + step.duration_seconds * step.repetitions)
          (step_idx + 1) s hc hlt2
      have hnotin : ¬ tit - step_time < step.duration_seconds * step.repetitions := by
        linarith
      refine ⟨i, r, t, ?_, ?_⟩
      · simp only [progressSpec]
        rw [if_neg hnotin, sub_sub]
        exact hspec
      · simp only [advanceSteps]
        rw [if_pos hc]
        exact hadv
    · have hin : tit - step_time < step.duration_seconds * step.repetitions := by
        linarith
      have hd : ¬ step.duration_seconds = 0 := by
        intro hz
        rw [hz, zero_mul] at hin
        omega
      have hmin : min ((tit - step_time).fdiv step.duration_seconds + 1) step.repetitions =
          min step.repetitions ((tit - step_time).fdiv step.duration_seconds + 1) :=
        min_comm _ _
      refine ⟨step_idx,
        min step.repetitions ((tit - step_time).fdiv step.duration_seconds + 1),
        (if (tit - step_time).fmod step.duration_seconds = 0 ∧
            1 < min step.repetitions ((tit - step_time).fdiv step.duration_seconds + 1)
          then step.duration_seconds
          else (tit - step_time).fmod step.duration_seconds), ?_, ?_⟩
      · simp only [progressSpec]
        rw [if_pos hin]
      · simp only [advanceSteps]
        rw [if_neg hc, if_neg hd, hmin]

/-- Bounds on the spec progress triple: with positive durations and
repetition counts and a non-negative elapsed value strictly inside the
spans, the selected index is `idx + j` for a position `j` inside the list,
the repetition lies in `[1, repetitions]` of that step and the time-in-step
in `[0, duration]` of that step. -/
theorem progressSpec_bounds :
    ∀ (steps : List TimerStepData) (idx e : Int),
      (∀ st ∈ steps, 1 ≤ st.duration_seconds ∧ 1 ≤ st.repetitions) →
      0 ≤ e →
      e < calculateTotalDuration steps →
      ∃ (j : Nat) (hj : j < steps.length) (r t : Int),
        progressSpec steps idx e = some (idx + (j : Int), r, t) ∧
        1 ≤ r ∧ r ≤ (steps.get ⟨j, hj⟩).repetitions ∧
        0 ≤ t ∧ t ≤ (steps.get ⟨j, hj⟩).duration_seconds
  | [], idx, e, hpos, h0, hlt => by
    exfalso
    simp only [calculateTotalDuration, List.map_nil, List.sum_nil] at hlt
    omega
  | step :: rest, idx, e, hpos, h0, hlt => by
    have hd : 1 ≤ step.duration_seconds := (hpos step (by simp)).1
    have hr : 1 ≤ step.repetitions := (hpos step (by simp)).2
    by_cases hin : e < step.duration_seconds * step.repetitions
    · refine ⟨0, by simp, min step.repetitions (e.fdiv step.duration_seconds + 1),
        (if e.fmod step.duration_seconds = 0 ∧
            1 < min step.repetitions (e.fdiv step.duration_seconds + 1)
          then step.duration_seconds
          else e.fmod step.duration_seconds), ?_, ?_, ?_, ?_, ?_⟩
      · simp only [progressSpec]
        rw [if_pos hin]
        norm_num
      · have hq : 0 ≤ e.fdiv step.duration_seconds :=
          Int.fdiv_nonneg h0 (by linarith)
        exact le_min hr (by omega)
      · simp only [List.get]
        exact min_le_left _ _
      · split
        · linarith
        · exact Int.fmod_nonneg' e (by linarith)
      · split
        · simp
        · simpa using (Int.fmod_lt_of_pos e (by linarith)).le
    · have hskip : step.duration_seconds * step.repetitions ≤ e := by linarith
      have h02 : 0 ≤ e - step.duration_seconds * step.repetitions := by linarith
      have hlt2 : e - step.duration_seconds * step.repetitions <
          calculateTotalDuration rest := by
        simp only [calculateTotalDuration, List.map_cons, List.sum_cons] at hlt ⊢
        linarith
      obtain ⟨j, hj, r, t, hspec, hr1, hr2, ht1, ht2⟩ :=
        progressSpec_bounds rest (idx + 1) (e - step.duration_seconds * step.repetitions)
          (fun st hst => hpos st (List.mem_cons_of_mem _ hst)) h02 hlt2
      refine ⟨j + 1, by simpa using hj, r, t, ?_, hr1, by simpa using hr2, ht1,
        by simpa using ht2⟩
      simp only [progressSpec]
      rw [if_neg hin]
      have hidx : idx + 1 + (j : Int) = idx + ((j + 1 : Nat) : Int) := by
        push_cast
        ring
      rw [← hidx]
      exact hspec

/-- Shared lifting of `advanceSteps_eq_spec` to `updateRecord`: below the
total duration the recompute succeeds and its three progress fields are the
`progressSpec` triple. -/
theorem updateRecord_eq_progressSpec (now : Int) (s : TimerState)
    (hdur : s.total_duration = calculateTotalDuration s.steps)
    (h0 : 0 ≤ now - s.start_time - s.total_time_paused)
    (hlt : now - s.start_time - s.total_time_paused < s.total_duration) :
    ∃ i r t,
      progressSpec s.steps 0 (now - s.start_time - s.total_time_paused) = some (i, r, t) ∧
      updateRecord now s = .ok { s with
        time_in_timer := now - s.start_time - s.total_time_paused,
        current_step_index := i,
        current_repetition := r,
        time_in_step := t } := by
  obtain ⟨i, r, t, hspec, hadv⟩ :=
    advanceSteps_eq_spec s.steps (now - s.start_time - s.total_time_paused) 0 0
      { s with time_in_timer := now - s.start_time - s.total_time_paused }
      h0 (by rw [sub_zero, ← hdur]; exact hlt)
  refine ⟨i, r, t, by rwa [sub_zero] at hspec, ?_⟩
  simp only [updateRecord]
  rw [if_neg (not_le.mpr hlt)]
  exact hadv

/-- Claim C6: for a record whose non-empty step list has durations ≥ 1 and
repetition counts ≥ 1 and whose elapsed active time is strictly below the
total duration, the recompute selects the first step not fully passed and
fills the three progress fields exactly as the specification's formulas
(`progressSpec`: repetition `min(repetitions, remaining / duration + 1)`,
time `remaining mod duration` with the repetition-boundary correction)
dictate. -/
theorem progress_fields_follow_spec (now : Int) (s : TimerState)
    (_hne : s.steps ≠ [])
    (_hpos : ∀ st ∈ s.steps, 1 ≤ st.duration_seconds ∧ 1 ≤ st.repetitions)
    (hdur : s.total_duration = calculateTotalDuration s.steps)
    (h0 : 0 ≤ now - s.start_time - s.total_time_paused)
    (hlt : now - s.start_time - s.total_time_paused < s.total_duration) :
    ∃ i r t,
      progressSpec s.steps 0 (now - s.start_time - s.total_time_paused) = some (i, r, t) ∧
      updateRecord now s = .ok { s with
        time_in_timer := now - s.start_time - s.total_time_paused,
        current_step_index := i,
        current_repetition := r,
        time_in_step := t } :=
  updateRecord_eq_progressSpec now s hdur h0 hlt

/-- Witness for C6: `demoSteps` started at instant 0 and recomputed at
instant 60, plus the spec's worked boundary examples at elapsed 60, 61 and
120 seconds. -/
theorem progress_fields_follow_spec_witness :
    (∃ i r t,
      progressSpec startedRecord.steps 0
        (60 - startedRecord.start_time - startedRecord.total_time_paused) = some (i, r, t) ∧
      updateRecord 60 startedRecord = .ok { startedRecord with
        time_in_timer := 60 - startedRecord.start_time - startedRecord.total_time_paused,
        current_step_index := i,
        current_repetition := r,
        time_in_step := t }) ∧
    progressSpec demoSteps 0 60 = some (0, 2, 60) ∧
    progressSpec demoSteps 0 61 = some (0, 2, 1) ∧
    progressSpec demoSteps 0 120 = some (1, 1, 0) :=
  ⟨progress_fields_follow_spec 60 startedRecord (by decide) (by decide) (by decide)
      (by decide) (by decide),
    by decide, by decide, by decide⟩

/-- Claim C10: for a record whose step list has durations ≥ 1 and repetition
counts ≥ 1, whenever the recompute runs with a non-negative elapsed active
time strictly below the total duration, the derived fields stay in bounds:
the step index addresses a step of the list, the repetition lies in
`[1, repetitions]` of that step and the time-in-step in `[0, duration]` of
that step. -/
theorem progress_fields_in_bounds (now : Int) (s : TimerState)
    (hpos : ∀ st ∈ s.steps, 1 ≤ st.duration_seconds ∧ 1 ≤ st.repetitions)
    (hdur : s.total_duration = calculateTotalDuration s.steps)
    (h0 : 0 ≤ now - s.start_time - s.total_time_paused)
    (hlt : now - s.start_time - s.total_time_paused < s.total_duration) :
    ∃ (u : TimerState) (j : Nat) (hj : j < s.steps.length),
      updateRecord now s = .ok u ∧
      u.current_step_index = (j : Int) ∧
      1 ≤ u.current_repetition ∧
      u.current_repetition ≤ (s.steps.get ⟨j, hj⟩).repetitions ∧
      0 ≤ u.time_in_step ∧
      u.time_in_step ≤ (s.steps.get ⟨j, hj⟩).duration_seconds := by
  obtain ⟨i, r, t, hspec, hupd⟩ :=
    updateRecord_eq_progressSpec now s hdur h0 hlt
  obtain ⟨j, hj, r2, t2, hspec2, hb1, hb2, hb3, hb4⟩ :=
    progressSpec_bounds s.steps 0 (now - s.start_time - s.total_time_paused)
      hpos h0 (by rw [← hdur]; exact hlt)
  rw [hspec] at hspec2
  obtain ⟨hi, hr, ht⟩ : i = 0 + (j : Int) ∧ r = r2 ∧ t = t2 := by
    have := Option.some.inj hspec2
    exact ⟨congrArg Prod.fst this, congrArg Prod.fst (congrArg Prod.snd this),
      congrArg Prod.snd (congrArg Prod.snd this)⟩
  exact ⟨_, j, hj, hupd, by simp [hi], by simp [hr, hb1], by simpa [hr] using hb2,
    by simp [ht, hb3], by simpa [ht] using hb4⟩

/-- Witness for C10: `demoSteps` started at instant 0 and recomputed at
instant 61 (inside repetition 2 of the first step). -/
theorem progress_fields_in_bounds_witness :
    ∃ (u : TimerState) (j : Nat) (hj : j < startedRecord.steps.length),
      updateRecord 61 startedRecord = .ok u ∧
      u.current_step_index = (j : Int) ∧
      1 ≤ u.current_repetition ∧
      u.current_repetition ≤ (startedRecord.steps.get ⟨j, hj⟩).repetitions ∧
      0 ≤ u.time_in_step ∧
      u.time_in_step ≤ (startedRecord.steps.get ⟨j, hj⟩).duration_seconds :=
  progress_fields_in_bounds 61 startedRecord (by decide) (by decide) (by decide) (by decide)

end ITimer
